import Mathlib

/-
Shallow embedding of src/art.c (ARTinC - Adaptive Radix Tree in C).

Modelling conventions:
- A C pointer value is `Option Nat`: `none` is NULL, `some p` is a non-null
  pointer identified by `p`.  `findChild` returns such a pointer (NULL means
  "child absent").
- A byte is `Fin 256` (the unsigned bit pattern stored in memory).  The C
  source declares key bytes as `char`, which on the target platform
  (x86-64, the platform the source's `#ifdef __x86_64__` / `__SSE2__`
  branches address) is signed; `charOfByte` gives the signed value that C
  comparisons and array subscripts see.
- Fallible evaluation: functions that can perform an out-of-bounds access
  or an undefined shift return `Option Ptr`; `none` marks undefined
  behaviour, `some r` means the C code returns pointer `r`.
- The `__SSE2__` preprocessor conditional inside `findChild` is modelled by
  a `sse : Bool` parameter.
- `calloc`/`malloc` outcomes are passed as explicit `Bool` flags
  (`true` = allocation succeeded).
-/

namespace ARTinC

/-- Signed value of a byte when read as a C `char` on x86-64 (signed char). -/
def charOfByte (b : Fin 256) : Int :=
  if (b : Nat) < 128 then ((b : Nat) : Int) else ((b : Nat) : Int) - 256

/-- EMPTY_KEY sentinel from src/art.c line 18: `(unsigned char)255`. -/
def EMPTY_KEY : Fin 256 := 255

/-- A C pointer: `none` = NULL. -/
abbrev Ptr := Option Nat

/-- Node4 from src/art.c (prefix renamed prefixBytes: `prefix` is reserved in Lean). -/
structure Node4Data where
  prefixBytes : Fin 32 → Fin 256
  prefixLen : Nat
  keys : Fin 4 → Fin 256
  children : Fin 4 → Ptr
  count : Nat

/-- Node16 from src/art.c. -/
structure Node16Data where
  prefixBytes : Fin 32 → Fin 256
  prefixLen : Nat
  keys : Fin 16 → Fin 256
  children : Fin 16 → Ptr
  count : Nat

/-- Node48 from src/art.c: 256-entry byte-to-slot table, 48 children. -/
structure Node48Data where
  prefixBytes : Fin 32 → Fin 256
  prefixLen : Nat
  keys : Fin 256 → Fin 256
  children : Fin 48 → Ptr

/-- Node256 from src/art.c: 256 children indexed directly. -/
structure Node256Data where
  prefixBytes : Fin 32 → Fin 256
  prefixLen : Nat
  children : Fin 256 → Ptr

/-- LeafNode from src/art.c (key and value are opaque pointers). -/
structure LeafData where
  key : Ptr
  value : Ptr

/-- Tagged node: the NodeType enum dispatch of src/art.c. -/
inductive Node where
  | node4 : Node4Data → Node
  | node16 : Node16Data → Node
  | node48 : Node48Data → Node
  | node256 : Node256Data → Node
  | leaf : LeafData → Node

/-- Count of trailing zero bits: `__builtin_ctz` (meaningful on nonzero input). -/
def ctz (n : Nat) : Nat :=
  if h : n = 0 then 0
  else if n % 2 = 1 then 0 else ctz (n / 2) + 1
termination_by n
decreasing_by
  exact Nat.div_lt_self (Nat.pos_of_ne_zero h) (by omega)

/-- Result bitfield of `_mm_movemask_epi8(_mm_cmpeq_epi8(set1(byte), keys))`:
bit i is set exactly when stored byte i equals the searched byte. -/
def sseMovemask (keys : Fin 16 → Fin 256) (b : Fin 256) : Nat :=
  ((List.finRange 16).map (fun i => if keys i = b then 2 ^ (i : Nat) else 0)).sum

/-- findChildSSE from src/art.c lines 192-204.  The mask is the source's
`1 << (node->count - 1)` (a single bit).  `none` marks undefined behaviour:
the shift `1 << -1` when count = 0, or a shift past the int width. -/
def findChildSSE (n : Node16Data) (b : Fin 256) : Option Ptr :=
  if n.count = 0 then none
  else if 32 ≤ n.count then none
  else
    let bitfield := sseMovemask n.keys b &&& 2 ^ (n.count - 1)
    if bitfield ≠ 0 then
      if h : ctz bitfield < 16 then some (n.children ⟨ctz bitfield, h⟩) else none
    else some none

/-- Loop of findChildBinary from src/art.c lines 221-239, with the C ints
low/high explicit.  The byte comparisons `midByte < byte` are signed char
comparisons.  `none` marks an out-of-bounds read of keys[mid]. -/
def findChildBinaryAux (keys : Fin 16 → Fin 256) (children : Fin 16 → Ptr)
    (b : Fin 256) (low high : Int) : Option Ptr :=
  if hlh : low ≤ high then
    if h : 0 ≤ low + (high - low) / 2 ∧ low + (high - low) / 2 < 16 then
      if charOfByte (keys ⟨(low + (high - low) / 2).toNat, by omega⟩) < charOfByte b then
        findChildBinaryAux keys children b (low + (high - low) / 2 + 1) high
      else if charOfByte b < charOfByte (keys ⟨(low + (high - low) / 2).toNat, by omega⟩) then
        findChildBinaryAux keys children b low (low + (high - low) / 2 - 1)
      else some (children ⟨(low + (high - low) / 2).toNat, by omega⟩)
    else none
  else some none
termination_by (high + 1 - low).toNat
decreasing_by
  all_goals simp_wf
  all_goals omega

/-- findChildBinary from src/art.c lines 220-240. -/
def findChildBinary (n : Node16Data) (b : Fin 256) : Option Ptr :=
  findChildBinaryAux n.keys n.children b 0 ((n.count : Int) - 1)

/-- NODE4 branch of findChild (src/art.c lines 262-272): linear scan of the
first `count` slots, comparing chars.  If no occupied slot in range matches
and count exceeds the array bound 4, the C loop reads keys[4]: `none`. -/
def findChildNode4 (n : Node4Data) (b : Fin 256) : Option Ptr :=
  match ((List.finRange 4).take n.count).find?
      (fun i => decide (charOfByte (n.keys i) = charOfByte b)) with
  | some i => some (n.children i)
  | none => if n.count ≤ 4 then some none else none

/-- findChild from src/art.c lines 261-301.  `sse` reflects the `__SSE2__`
preprocessor conditional in the NODE16 branch.  The NODE48 and NODE256
branches subscript their arrays with the (signed) char `byte`; a negative
subscript is an out-of-bounds access: `none`. -/
def findChild (sse : Bool) (node : Node) (b : Fin 256) : Option Ptr :=
  match node with
  | .node4 n => findChildNode4 n b
  | .node16 n => if sse then findChildSSE n b else findChildBinary n b
  | .node48 n =>
      if h : 0 ≤ charOfByte b then
        let childIndex := n.keys ⟨(charOfByte b).toNat, by
          have hb := b.isLt
          have h2 : charOfByte b < 256 := by unfold charOfByte; split <;> omega
          omega⟩
        if childIndex ≠ EMPTY_KEY then
          if h48 : (childIndex : Nat) < 48 then some (n.children ⟨(childIndex : Nat), h48⟩)
          else none
        else some none
      else none
  | .node256 n =>
      if h : 0 ≤ charOfByte b then
        some (n.children ⟨(charOfByte b).toNat, by
          have hb := b.isLt
          have h2 : charOfByte b < 256 := by unfold charOfByte; split <;> omega
          omega⟩)
      else none
  | .leaf _ => some none

/-- The node built by createRootNode (src/art.c lines 142-156) when calloc
succeeds: calloc zeroes every field, then type = NODE4, prefixLen = 0 and
every keys slot is set to EMPTY_KEY; children stay NULL, count stays 0. -/
def rootNode4 : Node :=
  Node.node4
    { prefixBytes := fun _ => 0
      prefixLen := 0
      keys := fun _ => EMPTY_KEY
      children := fun _ => none
      count := 0 }

/-- createRootNode from src/art.c lines 142-156.  `allocOk` is the calloc
outcome; NULL is returned when it fails. -/
def createRootNode (allocOk : Bool) : Option Node :=
  if allocOk then some rootNode4 else none

/-- ART from src/art.c lines 127-130: root pointer (none = NULL) and size. -/
structure ART where
  root : Option Node
  size : Nat

/-- initializeAdaptiveRadixTree from src/art.c lines 167-177.  `allocTreeOk`
is the malloc outcome for the ART struct, `allocRootOk` the calloc outcome
inside createRootNode.  The source assigns `tree->root = createRootNode()`
without checking the result. -/
def initializeAdaptiveRadixTree (allocTreeOk allocRootOk : Bool) : Option ART :=
  if allocTreeOk then
    some { root := createRootNode allocRootOk, size := 0 }
  else none

/-- Shared all-zero prefix array for the concrete test nodes. -/
def zeroPrefix : Fin 32 → Fin 256 := fun _ => 0

/-- Concrete Node16: two occupied slots, keys 1 and 2 (sorted), distinct children. -/
def exNode16A : Node16Data where
  prefixBytes := zeroPrefix
  prefixLen := 0
  keys := fun i => if (i : Nat) = 0 then 1 else if (i : Nat) = 1 then 2 else EMPTY_KEY
  children := fun i => if (i : Nat) = 0 then some 10 else if (i : Nat) = 1 then some 20 else none
  count := 2

/-- Concrete Node16 holding a child under indexing byte 0 in slot 0. -/
def exNode16Zero : Node16Data where
  prefixBytes := zeroPrefix
  prefixLen := 0
  keys := fun i => if (i : Nat) = 0 then 0 else if (i : Nat) = 1 then 5 else EMPTY_KEY
  children := fun i => if (i : Nat) = 0 then some 7 else if (i : Nat) = 1 then some 8 else none
  count := 2

/-- Concrete Node16 whose occupied key bytes 1 and 200 are sorted ascending
as unsigned bytes (1 < 200) but not as signed chars (1 > -56). -/
def exNode16High : Node16Data where
  prefixBytes := zeroPrefix
  prefixLen := 0
  keys := fun i => if (i : Nat) = 0 then 1 else if (i : Nat) = 1 then 200 else EMPTY_KEY
  children := fun i => if (i : Nat) = 0 then some 10 else if (i : Nat) = 1 then some 20 else none
  count := 2

/-- Concrete Node16 with three ASCII keys 10 < 20 < 30, sorted ascending. -/
def sortedNode16 : Node16Data where
  prefixBytes := zeroPrefix
  prefixLen := 0
  keys := fun i => if (i : Nat) = 0 then 10 else if (i : Nat) = 1 then 20
    else if (i : Nat) = 2 then 30 else EMPTY_KEY
  children := fun i => if (i : Nat) = 0 then some 11 else if (i : Nat) = 1 then some 21
    else if (i : Nat) = 2 then some 31 else none
  count := 3

/-- Concrete Node4: two occupied slots with keys 3 and 7. -/
def exNode4 : Node4Data where
  prefixBytes := zeroPrefix
  prefixLen := 0
  keys := fun i => if (i : Nat) = 0 then 3 else if (i : Nat) = 1 then 7 else EMPTY_KEY
  children := fun i => if (i : Nat) = 0 then some 30 else if (i : Nat) = 1 then some 42 else none
  count := 2

/-- Concrete well-formed Node48 with one child, stored under byte 200
(table entry 200 holds slot 5, which owns a child). -/
def exNode48High : Node48Data where
  prefixBytes := zeroPrefix
  prefixLen := 0
  keys := fun c => if (c : Nat) = 200 then 5 else EMPTY_KEY
  children := fun s => if (s : Nat) = 5 then some 9 else none

/-- Concrete well-formed Node48 with one child under the ASCII byte 65. -/
def asciiNode48 : Node48Data where
  prefixBytes := zeroPrefix
  prefixLen := 0
  keys := fun c => if (c : Nat) = 65 then 0 else EMPTY_KEY
  children := fun s => if (s : Nat) = 0 then some 12 else none

/-- Concrete Node48 with one child stored under byte 255 (= EMPTY_KEY). -/
def exNode48Sent : Node48Data where
  prefixBytes := zeroPrefix
  prefixLen := 0
  keys := fun c => if (c : Nat) = 255 then 0 else EMPTY_KEY
  children := fun s => if (s : Nat) = 0 then some 3 else none

/-- Concrete empty Node48: the whole table is the sentinel, no children. -/
def exNode48Empty : Node48Data where
  prefixBytes := zeroPrefix
  prefixLen := 0
  keys := fun _ => EMPTY_KEY
  children := fun _ => none

/-- Concrete Node256 with one child under byte 65. -/
def exNode256 : Node256Data where
  prefixBytes := zeroPrefix
  prefixLen := 0
  children := fun c => if (c : Nat) = 65 then some 14 else none

/-! Helper lemmas. -/

/-- The char value of a byte is below 256. -/
theorem charOfByte_lt_256 (b : Fin 256) : charOfByte b < 256 := by
  have hb := b.isLt
  unfold charOfByte
  split <;> omega

/-- Reading bytes as signed chars preserves equality and distinctness. -/
theorem charOfByte_inj {a b : Fin 256} : charOfByte a = charOfByte b ↔ a = b := by
  constructor
  · intro h
    have ha := a.isLt
    have hb := b.isLt
    have hv : (a : Nat) = (b : Nat) := by
      unfold charOfByte at h
      split at h <;> split at h <;> omega
    exact Fin.ext hv
  · intro h
    rw [h]

/-- C1: the vectorized lookup findChildSSE and the portable findChildBinary
disagree on a two-child Node16 queried for the byte in slot 0: the SSE mask
`1 << (count - 1)` keeps only the compare bit of slot count-1, so the match
in slot 0 is discarded and the stored child is reported absent. -/
theorem findChildSSE_disagrees_with_binary :
    findChildBinary exNode16A 1 = some (some 10) ∧
    findChildSSE exNode16A 1 = some none := by
  constructor
  · unfold findChildBinary
    unfold findChildBinaryAux
    norm_num [exNode16A, charOfByte]
  · decide

/-- C3: when the ART struct allocation succeeds but the root node allocation
fails, initializeAdaptiveRadixTree still returns a tree, whose root is NULL
and whose size is 0 — contradicting the never-null-root contract. -/
theorem initializeART_null_root_on_alloc_failure :
    initializeAdaptiveRadixTree true false = some { root := none, size := 0 } := rfl

/-- C6: on the SSE build, findChild on a Node16 storing a child under byte 0
in slot 0 (count 2) reports the child absent, while the portable build
returns it; the miss comes from the C1 mask bug, not from byte 0 acting as
a sentinel. -/
theorem findChild_node16_byte0_sse_missed :
    exNode16Zero.keys 0 = 0 ∧
    exNode16Zero.children 0 = some 7 ∧
    findChild true (Node.node16 exNode16Zero) 0 = some none ∧
    findChild false (Node.node16 exNode16Zero) 0 = some (some 7) := by
  refine ⟨rfl, rfl, by decide, ?_⟩
  show findChildBinary exNode16Zero 0 = some (some 7)
  unfold findChildBinary
  unfold findChildBinaryAux
  norm_num [exNode16Zero, charOfByte]

/-- C9: createRootNode yields a fresh Node4 with count 0, every key slot set
to the sentinel and every child pointer NULL, and findChild on it returns
absent for every query byte on both build variants. -/
theorem findChild_fresh_root_absent :
    createRootNode true = some rootNode4 ∧
    ∀ (sse : Bool) (b : Fin 256), findChild sse rootNode4 b = some none := by
  exact ⟨rfl, fun sse b => rfl⟩

/-- C10: findChild on a node whose type tag is LEAF returns NULL (absent)
for every query byte, never reinterpreting the node as an inner node. -/
theorem findChild_leaf_absent (sse : Bool) (l : LeafData) (b : Fin 256) :
    findChild sse (Node.leaf l) b = some none := rfl

/-- Membership in the occupied prefix of the Node4 slot list. -/
theorem mem_take_finRange4 (c : Nat) (hc : c ≤ 4) (i : Fin 4) :
    i ∈ (List.finRange 4).take c ↔ (i : Nat) < c := by
  interval_cases c <;> revert i <;> decide

/-- find? only looks at the predicate values on the list elements. -/
theorem find?_congr_list {α : Type} (l : List α) (p q : α → Bool)
    (h : ∀ x ∈ l, p x = q x) : l.find? p = l.find? q := by
  induction l with
  | nil => rfl
  | cons a t ih =>
    have ha := h a (List.mem_cons_self a t)
    simp only [List.find?_cons, ha]
    cases hq : q a
    · exact ih fun x hx => h x (List.mem_cons_of_mem a hx)
    · rfl

/-- C4: on a Node4 with occupancy count at most 4, findChild returns the
child of an occupied slot whose stored key byte equals the query byte when
one exists, returns absent when no occupied slot matches, and its result
depends only on the occupied slots 0..count-1 (slots beyond the count are
never consulted). -/
theorem findChild_node4_spec (sse : Bool) (n : Node4Data) (h : n.count ≤ 4) (b : Fin 256) :
    ((∃ i : Fin 4, (i : Nat) < n.count ∧ n.keys i = b) →
      ∃ i : Fin 4, (i : Nat) < n.count ∧ n.keys i = b ∧
        findChild sse (Node.node4 n) b = some (n.children i)) ∧
    ((∀ i : Fin 4, (i : Nat) < n.count → n.keys i ≠ b) →
      findChild sse (Node.node4 n) b = some none) ∧
    (∀ m : Node4Data, m.count = n.count →
      (∀ i : Fin 4, (i : Nat) < n.count → m.keys i = n.keys i) →
      (∀ i : Fin 4, (i : Nat) < n.count → m.children i = n.children i) →
      findChild sse (Node.node4 m) b = findChild sse (Node.node4 n) b) := by
  have hmem : ∀ i : Fin 4, i ∈ (List.finRange 4).take n.count ↔ (i : Nat) < n.count :=
    mem_take_finRange4 n.count h
  refine ⟨?_, ?_, ?_⟩
  · rintro ⟨i0, hi0, hk⟩
    rcases hfind : ((List.finRange 4).take n.count).find?
        (fun i => decide (charOfByte (n.keys i) = charOfByte b)) with _ | j
    · exfalso
      have hall := List.find?_eq_none.mp hfind i0 ((hmem i0).mpr hi0)
      simp only [decide_eq_true_eq] at hall
      exact hall (by rw [hk])
    · have hpj := List.find?_some hfind
      simp only [decide_eq_true_eq] at hpj
      have hjmem := List.mem_of_find?_eq_some hfind
      refine ⟨j, (hmem j).mp hjmem, charOfByte_inj.mp hpj, ?_⟩
      show findChildNode4 n b = some (n.children j)
      unfold findChildNode4
      rw [hfind]
  · intro hno
    rcases hfind : ((List.finRange 4).take n.count).find?
        (fun i => decide (charOfByte (n.keys i) = charOfByte b)) with _ | j
    · show findChildNode4 n b = some none
      unfold findChildNode4
      rw [hfind, if_pos h]
    · exfalso
      have hpj := List.find?_some hfind
      simp only [decide_eq_true_eq] at hpj
      have hjmem := List.mem_of_find?_eq_some hfind
      exact hno j ((hmem j).mp hjmem) (charOfByte_inj.mp hpj)
  · intro m hcnt hkeys hchild
    show findChildNode4 m b = findChildNode4 n b
    unfold findChildNode4
    rw [hcnt]
    have hpq : ((List.finRange 4).take n.count).find?
        (fun i => decide (charOfByte (m.keys i) = charOfByte b)) =
        ((List.finRange 4).take n.count).find?
        (fun i => decide (charOfByte (n.keys i) = charOfByte b)) := by
      apply find?_congr_list
      intro x hx
      rw [hkeys x ((hmem x).mp hx)]
    rw [hpq]
    rcases hfind : ((List.finRange 4).take n.count).find?
        (fun i => decide (charOfByte (n.keys i) = charOfByte b)) with _ | j
    · rfl
    · have hjmem := List.mem_of_find?_eq_some hfind
      show some (m.children j) = some (n.children j)
      rw [hchild j ((hmem j).mp hjmem)]

/-- C4 witness: on the concrete two-child Node4, querying the unoccupied
byte 9 returns absent. -/
theorem findChild_node4_spec_witness :
    findChild true (Node.node4 exNode4) 9 = some none :=
  (findChild_node4_spec true exNode4 (by decide) 9).2.1 (by decide)

/-- ASCII bytes keep their value when read as a signed char. -/
theorem charOfByte_of_ascii (b : Fin 256) (hb : (b : Nat) < 128) :
    charOfByte b = ((b : Nat) : Int) := by
  unfold charOfByte
  rw [if_pos hb]

/-- A byte reads as a negative char exactly when it is 128 or above. -/
theorem charOfByte_neg_iff (b : Fin 256) : charOfByte b < 0 ↔ 128 ≤ (b : Nat) := by
  have hb := b.isLt
  unfold charOfByte
  split <;> omega

/-- NODE48 branch of findChild on an ASCII query byte: the table is indexed
at the byte value and the sentinel check decides between child and NULL. -/
theorem findChild_node48_ascii (sse : Bool) (n : Node48Data) (b : Fin 256)
    (hb : (b : Nat) < 128) :
    findChild sse (Node.node48 n) b =
      if n.keys b ≠ EMPTY_KEY then
        if h48 : (n.keys b : Nat) < 48 then some (n.children ⟨(n.keys b : Nat), h48⟩)
        else none
      else some none := by
  have h0 : 0 ≤ charOfByte b := by
    rw [charOfByte_of_ascii b hb]
    exact Int.natCast_nonneg _
  simp only [findChild]
  rw [dif_pos h0]
  simp only [charOfByte_of_ascii b hb, Int.toNat_natCast, Fin.eta]

/-- NODE48 branch of findChild on a byte at or above 128: the signed char
subscript is negative, an out-of-bounds access. -/
theorem findChild_node48_high (sse : Bool) (n : Node48Data) (b : Fin 256)
    (hb : 128 ≤ (b : Nat)) : findChild sse (Node.node48 n) b = none := by
  simp only [findChild]
  rw [dif_neg (not_le.mpr ((charOfByte_neg_iff b).mpr hb))]

/-- NODE256 branch of findChild on an ASCII query byte: direct indexing. -/
theorem findChild_node256_ascii (sse : Bool) (n : Node256Data) (b : Fin 256)
    (hb : (b : Nat) < 128) :
    findChild sse (Node.node256 n) b = some (n.children b) := by
  have h0 : 0 ≤ charOfByte b := by
    rw [charOfByte_of_ascii b hb]
    exact Int.natCast_nonneg _
  simp only [findChild]
  rw [dif_pos h0]
  simp only [charOfByte_of_ascii b hb, Int.toNat_natCast, Fin.eta]

/-- NODE256 branch of findChild on a byte at or above 128: out of bounds. -/
theorem findChild_node256_high (sse : Bool) (n : Node256Data) (b : Fin 256)
    (hb : 128 ≤ (b : Nat)) : findChild sse (Node.node256 n) b = none := by
  simp only [findChild]
  rw [dif_neg (not_le.mpr ((charOfByte_neg_iff b).mpr hb))]

set_option maxRecDepth 100000 in
/-- C2 counterexample: at query byte 255 the Node48 and Node256 branches of
findChild subscript their 256-entry arrays with the signed char value -1,
an out-of-bounds access (modelled as none), so lookup is not total over the
byte domain 0..255. -/
theorem findChild_byte255_out_of_bounds :
    findChild true (Node.node48 exNode48High) 255 = none ∧
    findChild true (Node.node256 exNode256) 255 = none := by
  exact ⟨by decide, by decide⟩

/-- C2 amended: for query bytes 0..127 (the ASCII domain the code supports:
EMPTY_KEY is documented as a value that is not a valid ASCII character) the
Node48 table access and the Node256 child access are in bounds and lookup
is total; bytes 128..255 read as negative char indices and access out of
bounds. -/
theorem findChild_node48_256_ascii_total (sse : Bool) (b : Fin 256)
    (hb : (b : Nat) < 128) (n48 : Node48Data)
    (hwf : ∀ c : Fin 256, n48.keys c = EMPTY_KEY ∨ (n48.keys c : Nat) < 48)
    (n256 : Node256Data) :
    findChild sse (Node.node48 n48) b ≠ none ∧
    findChild sse (Node.node256 n256) b ≠ none := by
  constructor
  · rw [findChild_node48_ascii sse n48 b hb]
    rcases hwf b with hk | hk
    · rw [if_neg (not_not_intro hk)]
      exact Option.some_ne_none _
    · have hne : n48.keys b ≠ EMPTY_KEY := by
        intro heq
        rw [heq] at hk
        exact absurd hk (by decide)
      rw [if_pos hne, dif_pos hk]
      exact Option.some_ne_none _
  · rw [findChild_node256_ascii sse n256 b hb]
    exact Option.some_ne_none _

set_option maxRecDepth 100000 in
/-- C2 witness: at the ASCII byte 65 both branch lookups on the concrete
nodes are in bounds. -/
theorem findChild_node48_256_ascii_total_witness :
    findChild true (Node.node48 asciiNode48) 65 ≠ none ∧
    findChild true (Node.node256 exNode256) 65 ≠ none :=
  findChild_node48_256_ascii_total true 65 (by decide) asciiNode48 (by decide) exNode256

set_option maxRecDepth 100000 in
/-- C7 counterexample: a well-formed Node48 whose table entry for byte 200
is the non-sentinel slot 5 owning a child, yet findChild at byte 200
returns no child at all: the signed char subscript -56 is out of bounds, so
the claimed equivalence (child returned exactly when the entry is not the
sentinel) fails at query bytes of 128 and above. -/
theorem findChild_node48_nonsentinel_no_child :
    exNode48High.keys 200 = 5 ∧
    exNode48High.keys 200 ≠ EMPTY_KEY ∧
    exNode48High.children 5 = some 9 ∧
    (∀ c : Fin 256, exNode48High.keys c = EMPTY_KEY ∨ (exNode48High.keys c : Nat) < 48) ∧
    findChild true (Node.node48 exNode48High) 200 = none := by
  exact ⟨by decide, by decide, by decide, by decide, by decide⟩

/-- C7 amended: EMPTY_KEY (255) is disjoint from every valid slot index
0..47, and for every well-formed Node48 (each table entry is the sentinel
or a slot index below 48 with an owned child) and every query byte in the
supported ASCII domain 0..127, findChild returns a stored non-null child
exactly when the table entry is not the sentinel; a sentinel entry yields
NULL and is never used as a slot index. -/
theorem node48_sentinel_disjoint_spec (sse : Bool) (n : Node48Data)
    (hwf : ∀ c : Fin 256, n.keys c = EMPTY_KEY ∨ (n.keys c : Nat) < 48)
    (hown : ∀ c : Fin 256, ∀ s : Fin 48, (n.keys c : Nat) = (s : Nat) →
      n.children s ≠ none)
    (b : Fin 256) (hb : (b : Nat) < 128) :
    (∀ s : Nat, s < 48 → (EMPTY_KEY : Fin 256).val ≠ s) ∧
    (n.keys b = EMPTY_KEY → findChild sse (Node.node48 n) b = some none) ∧
    (n.keys b ≠ EMPTY_KEY → ∃ s : Fin 48, (n.keys b : Nat) = (s : Nat) ∧
      findChild sse (Node.node48 n) b = some (n.children s) ∧
      n.children s ≠ none) := by
  refine ⟨?_, ?_, ?_⟩
  · intro s hs
    have h255 : (EMPTY_KEY : Fin 256).val = 255 := rfl
    omega
  · intro hk
    rw [findChild_node48_ascii sse n b hb, if_neg (not_not_intro hk)]
  · intro hk
    rcases hwf b with hsent | h48
    · exact absurd hsent hk
    · refine ⟨⟨(n.keys b : Nat), h48⟩, rfl, ?_, hown b ⟨(n.keys b : Nat), h48⟩ rfl⟩
      rw [findChild_node48_ascii sse n b hb, if_pos hk, dif_pos h48]

set_option maxRecDepth 100000 in
/-- C7 witness: on the concrete ASCII Node48, the sentinel entry at byte 66
yields NULL. -/
theorem node48_sentinel_disjoint_spec_witness :
    findChild true (Node.node48 asciiNode48) 66 = some none :=
  (node48_sentinel_disjoint_spec true asciiNode48 (by decide) (by decide) 66
    (by decide)).2.1 (by decide)

set_option maxRecDepth 100000 in
/-- C8 counterexample: in node class Node48, a child stored under the byte
255 (the EMPTY_KEY sentinel value) is not distinguishable from an empty
slot: findChild at byte 255 performs the same out-of-bounds signed-char
access on the occupied node as on the fully empty node, and never returns
the stored child. -/
theorem sentinel_key_byte_indistinguishable :
    exNode48Sent.keys 255 = 0 ∧
    exNode48Sent.children 0 = some 3 ∧
    findChild true (Node.node48 exNode48Sent) 255 =
      findChild true (Node.node48 exNode48Empty) 255 ∧
    findChild true (Node.node48 exNode48Sent) 255 = none := by
  exact ⟨by decide, by decide, by decide, by decide⟩

/-- C8 amended: the sentinel is only disjoint from the restricted ASCII
keyspace the code supports: every supported key byte 0..127 differs from
EMPTY_KEY, and for such bytes a stored child is returned by findChild in
the table-indexed classes (Node48 given its slot entry, Node256 directly),
so occupied and empty slots are distinguishable there; key bytes 128..255,
including the sentinel value itself, are outside the supported keyspace. -/
theorem emptyKey_ascii_disjoint (sse : Bool) (b : Fin 256) (hb : (b : Nat) < 128) :
    b ≠ EMPTY_KEY ∧
    (∀ n : Node48Data, ∀ s : Fin 48, (n.keys b : Nat) = (s : Nat) →
      findChild sse (Node.node48 n) b = some (n.children s)) ∧
    (∀ n : Node256Data, findChild sse (Node.node256 n) b = some (n.children b)) := by
  refine ⟨?_, ?_, ?_⟩
  · intro heq
    have hv : (b : Nat) = (EMPTY_KEY : Fin 256).val := by rw [heq]
    have h255 : (EMPTY_KEY : Fin 256).val = 255 := by decide
    omega
  · intro n s hs
    have h48 : (n.keys b : Nat) < 48 := by
      have := s.isLt
      omega
    have hne : n.keys b ≠ EMPTY_KEY := by
      intro heq
      rw [heq] at h48
      exact absurd h48 (by decide)
    rw [findChild_node48_ascii sse n b hb, if_pos hne, dif_pos h48]
    congr 1
    congr 1
    exact Fin.ext hs
  · intro n
    exact findChild_node256_ascii sse n b hb

set_option maxRecDepth 100000 in
/-- C8 witness: the stored child under the ASCII byte 65 is returned on the
concrete Node256, distinguishing the occupied slot from an empty one. -/
theorem emptyKey_ascii_disjoint_witness :
    findChild true (Node.node256 exNode256) 65 = some (some 14) :=
  ((emptyKey_ascii_disjoint true 65 (by decide)).2.2 exNode256).trans (by decide)

/-- Binary search loop, absence: when no index in [low, high] holds the
query char, the loop returns NULL (and never reads out of bounds while
0 ≤ low and high < 16). -/
theorem findChildBinaryAux_absent (keys : Fin 16 → Fin 256) (children : Fin 16 → Ptr)
    (b : Fin 256) :
    ∀ (n : Nat) (low high : Int), (high + 1 - low).toNat ≤ n → 0 ≤ low → high < 16 →
    (∀ i : Fin 16, low ≤ ((i : Nat) : Int) → ((i : Nat) : Int) ≤ high →
      charOfByte (keys i) ≠ charOfByte b) →
    findChildBinaryAux keys children b low high = some none := by
  intro n
  induction n with
  | zero =>
    intro low high hm h0 h16 hno
    unfold findChildBinaryAux
    rw [dif_neg (by omega)]
  | succ n ih =>
    intro low high hm h0 h16 hno
    by_cases hlh : low ≤ high
    · have hcond : 0 ≤ low + (high - low) / 2 ∧ low + (high - low) / 2 < 16 := by omega
      unfold findChildBinaryAux
      rw [dif_pos hlh, dif_pos hcond]
      set M : Fin 16 := (⟨(low + (high - low) / 2).toNat, by omega⟩ : Fin 16) with hMdef
      have hMval : (M : Nat) = (low + (high - low) / 2).toNat := by rw [hMdef]
      show (if charOfByte (keys M) < charOfByte b then
          findChildBinaryAux keys children b (low + (high - low) / 2 + 1) high
        else if charOfByte b < charOfByte (keys M) then
          findChildBinaryAux keys children b low (low + (high - low) / 2 - 1)
        else some (children M)) = some none
      split_ifs with h1 h2
      · exact ih (low + (high - low) / 2 + 1) high (by omega) (by omega) h16
          (fun i hi1 hi2 => hno i (by omega) hi2)
      · exact ih low (low + (high - low) / 2 - 1) (by omega) h0 (by omega)
          (fun i hi1 hi2 => hno i hi1 (by omega))
      · exfalso
        have heqc : charOfByte (keys M) = charOfByte b :=
          le_antisymm (not_lt.mp h2) (not_lt.mp h1)
        exact hno M (by omega) (by omega) heqc
    · unfold findChildBinaryAux
      rw [dif_neg hlh]

/-- Binary search loop, presence: when index i0 in [low, high] holds the
query char and the chars of the indices up to high are strictly increasing,
the loop returns the child of i0. -/
theorem findChildBinaryAux_present (keys : Fin 16 → Fin 256) (children : Fin 16 → Ptr)
    (b : Fin 256) (i0 : Fin 16) (hkey : charOfByte (keys i0) = charOfByte b) :
    ∀ (n : Nat) (low high : Int), (high + 1 - low).toNat ≤ n → 0 ≤ low → high < 16 →
    low ≤ ((i0 : Nat) : Int) → ((i0 : Nat) : Int) ≤ high →
    (∀ i j : Fin 16, (i : Nat) < (j : Nat) → ((j : Nat) : Int) ≤ high →
      charOfByte (keys i) < charOfByte (keys j)) →
    findChildBinaryAux keys children b low high = some (children i0) := by
  intro n
  induction n with
  | zero =>
    intro low high hm h0 h16 hl0 hh0 hsorted
    exact absurd hm (by omega)
  | succ n ih =>
    intro low high hm h0 h16 hl0 hh0 hsorted
    have hlh : low ≤ high := by omega
    have hcond : 0 ≤ low + (high - low) / 2 ∧ low + (high - low) / 2 < 16 := by omega
    unfold findChildBinaryAux
    rw [dif_pos hlh, dif_pos hcond]
    set M : Fin 16 := (⟨(low + (high - low) / 2).toNat, by omega⟩ : Fin 16) with hMdef
    have hMval : (M : Nat) = (low + (high - low) / 2).toNat := by rw [hMdef]
    have hMhigh : ((M : Nat) : Int) ≤ high := by omega
    have hMlow : low ≤ ((M : Nat) : Int) := by omega
    show (if charOfByte (keys M) < charOfByte b then
        findChildBinaryAux keys children b (low + (high - low) / 2 + 1) high
      else if charOfByte b < charOfByte (keys M) then
        findChildBinaryAux keys children b low (low + (high - low) / 2 - 1)
      else some (children M)) = some (children i0)
    split_ifs with h1 h2
    · have hMlt : (M : Nat) < (i0 : Nat) := by
        rcases Nat.lt_trichotomy (M : Nat) (i0 : Nat) with h | h | h
        · exact h
        · exfalso
          have hMi0 : M = i0 := Fin.ext h
          rw [hMi0] at h1
          exact absurd hkey (ne_of_lt h1)
        · exfalso
          have hs := hsorted i0 M h hMhigh
          rw [hkey] at hs
          exact lt_irrefl _ (lt_trans hs h1)
      exact ih (low + (high - low) / 2 + 1) high (by omega) (by omega) h16
        (by omega) hh0 hsorted
    · have hMgt : (i0 : Nat) < (M : Nat) := by
        rcases Nat.lt_trichotomy (i0 : Nat) (M : Nat) with h | h | h
        · exact h
        · exfalso
          have hMi0 : M = i0 := Fin.ext h.symm
          rw [hMi0] at h2
          exact absurd hkey.symm (ne_of_lt h2)
        · exfalso
          have hs := hsorted M i0 h hh0
          rw [hkey] at hs
          exact lt_irrefl _ (lt_trans hs h2)
      exact ih low (low + (high - low) / 2 - 1) (by omega) h0 (by omega) hl0
        (by omega) (fun i j hij hj => hsorted i j hij (by omega))
    · have heqc : charOfByte (keys M) = charOfByte b :=
        le_antisymm (not_lt.mp h2) (not_lt.mp h1)
      have hMi0 : M = i0 := by
        rcases Nat.lt_trichotomy (M : Nat) (i0 : Nat) with h | h | h
        · exfalso
          have hs := hsorted M i0 h hh0
          rw [heqc, hkey] at hs
          exact lt_irrefl _ hs
        · exact Fin.ext h
        · exfalso
          have hs := hsorted i0 M h hMhigh
          rw [heqc, hkey] at hs
          exact lt_irrefl _ hs
      rw [hMi0]

/-- C5 counterexample: a Node16 whose occupied key bytes 1 and 200 are
sorted ascending as byte values, queried for the stored byte 200: the child
in slot 1 exists, yet findChildBinary returns absent, because the signed
char comparisons of the source order byte 200 as -56, below 1, so the
search walks the wrong way. -/
theorem findChildBinary_high_byte_missed :
    (exNode16High.keys 0 : Nat) < (exNode16High.keys 1 : Nat) ∧
    exNode16High.keys 1 = 200 ∧
    exNode16High.children 1 = some 20 ∧
    (1 : Nat) < exNode16High.count ∧
    findChildBinary exNode16High 200 = some none := by
  refine ⟨by decide, by decide, by decide, by decide, ?_⟩
  unfold findChildBinary
  unfold findChildBinaryAux
  unfold findChildBinaryAux
  norm_num [exNode16High, charOfByte]
  decide

/-- C5 amended: on a Node16 whose occupied key bytes are in the supported
ASCII domain 0..127 and sorted ascending, findChildBinary returns the child
stored at the slot whose key byte equals the query byte when such an
occupied slot exists, and absent otherwise; key bytes in the upper half
128..255 are not covered (they compare as negative chars, breaking the
search order: see the counterexample). -/
theorem findChildBinary_ascii_sorted_correct (n : Node16Data) (hc : n.count ≤ 16)
    (hascii : ∀ i : Fin 16, (i : Nat) < n.count → (n.keys i : Nat) < 128)
    (hsorted : ∀ i j : Fin 16, (i : Nat) < (j : Nat) → (j : Nat) < n.count →
      (n.keys i : Nat) < (n.keys j : Nat))
    (b : Fin 256) :
    (∀ i : Fin 16, (i : Nat) < n.count → n.keys i = b →
      findChildBinary n b = some (n.children i)) ∧
    ((∀ i : Fin 16, (i : Nat) < n.count → n.keys i ≠ b) →
      findChildBinary n b = some none) := by
  have hcsorted : ∀ i j : Fin 16, (i : Nat) < (j : Nat) →
      ((j : Nat) : Int) ≤ (n.count : Int) - 1 →
      charOfByte (n.keys i) < charOfByte (n.keys j) := by
    intro i j hij hj
    have hjc : (j : Nat) < n.count := by omega
    have hic : (i : Nat) < n.count := by omega
    rw [charOfByte_of_ascii (n.keys i) (hascii i hic),
      charOfByte_of_ascii (n.keys j) (hascii j hjc)]
    exact_mod_cast hsorted i j hij hjc
  constructor
  · intro i0 hi0 hk
    unfold findChildBinary
    exact findChildBinaryAux_present n.keys n.children b i0
      (by rw [hk]) (((n.count : Int) - 1) + 1 - 0).toNat 0 ((n.count : Int) - 1)
      (le_refl _) (by omega) (by omega) (by omega) (by omega) hcsorted
  · intro hno
    unfold findChildBinary
    exact findChildBinaryAux_absent n.keys n.children b
      (((n.count : Int) - 1) + 1 - 0).toNat 0 ((n.count : Int) - 1)
      (le_refl _) (by omega) (by omega)
      (fun i hi1 hi2 hce =>
        hno i (by omega) (charOfByte_inj.mp hce))

set_option maxRecDepth 100000 in
/-- C5 witness: on the concrete sorted ASCII Node16 (keys 10, 20, 30),
querying byte 20 returns the child of slot 1. -/
theorem findChildBinary_ascii_sorted_correct_witness :
    findChildBinary sortedNode16 20 = some (some 21) :=
  (((findChildBinary_ascii_sorted_correct sortedNode16 (by decide) (by decide)
    (by decide) 20).1 1 (by decide) (by decide)).trans (by decide))

end ARTinC
